import Mathlib

/-!
Shallow embedding of the media-upload microservice core (upload orchestrator,
image-processing derivative generator, database folder operations, delete
handlers) and proofs of the specification claims about it.

External effectful collaborators (the sharp image library, the storage
backend, the Prisma-backed metadata store, the filesystem) are modelled as
explicit oracle functions returning `Except`; the orchestration logic under
test is translated directly from the TypeScript source.
-/

namespace MediaUpload

/-- Errors are carried as their message strings, as in the source, where every
failure is a thrown `Error(message)`. -/
abbrev Err := String

/-- Raw byte content of a file, abstracted as a list of byte values. -/
abbrev Bytes := List Nat

/- ### ImageProcessingService: format sets (image-processing.ts lines 15-25) -/

/-- Translation of `FORMATS_TO_PROCESS` in `ImageProcessingService`. -/
def FORMATS_TO_PROCESS : List String := ["jpeg", "png", "webp", "tiff", "svg", "gif", "avif"]

/-- Translation of `FORMATS_TO_OPTIMIZE` in `ImageProcessingService`. -/
def FORMATS_TO_OPTIMIZE : List String := ["jpeg", "png", "webp", "tiff", "avif"]

/-- Translation of `isOptimizableFormat`: membership in `FORMATS_TO_OPTIMIZE`. -/
def isOptimizableFormat (format : String) : Bool :=
  FORMATS_TO_OPTIMIZE.contains format

/- ### optimizeImage (image-processing.ts lines 52-92) -/

/-- Removal of the first occurrence of a character, the semantics of the JS
`String.replace` with a plain single-character pattern and empty replacement. -/
def dropFirstOccurrence (c : Char) : List Char → List Char
  | [] => []
  | x :: xs => if x = c then xs else x :: dropFirstOccurrence c xs

/-- The expression `file.ext.replace('.', '')`: the first dot of the
extension is removed. -/
def extToFormat (ext : String) : String :=
  ⟨dropFirstOccurrence '.' ext.data⟩

/-- Format resolution in `optimizeImage`:
`options.format || file.ext.replace('.', '')`. -/
def resolveFormat (optFormat : Option String) (ext : String) : String :=
  match optFormat with
  | some f => f
  | none => extToFormat ext

/-- Translation of `optimizeImage`.  The sharp pipeline is modelled by the
re-encoder oracle `enc`: when the resolved format is optimizable the source
installs a format-specific re-encode operation and `toBuffer` returns its
output; otherwise no operation is installed and the pipeline passes the input
bytes through. -/
def optimizeImage (enc : String → Bytes → Bytes) (optFormat : Option String) (ext : String)
    (input : Bytes) : Bytes :=
  let format := resolveFormat optFormat ext
  if isOptimizableFormat format then enc format input else input

/- ### resizeImage / generateResponsiveImages (image-processing.ts lines 94-155) -/

/-- Result of one successful sharp resize (the fields of `sharp.OutputInfo`
that the service reads back). -/
structure ResizeResult where
  width : Nat
  height : Nat
  size : Nat
  deriving Repr, DecidableEq

/-- Translation of `generateResponsiveImages`: for each breakpoint attempt a
resize (oracle `resize`, `withoutEnlargement = true`); a failure is logged and
skipped, a success is recorded under the key `"w" ++ breakpoint`.  The
function is total: it returns a plain association list and cannot raise. -/
def generateResponsiveImages (resize : Nat → Except Err ResizeResult)
    (breakpoints : List Nat) : List (String × ResizeResult) :=
  breakpoints.foldl
    (fun acc bp =>
      match resize bp with
      | .ok r => acc ++ [("w" ++ toString bp, r)]
      | .error _ => acc)
    []

/-- Modelled from the spec: the sharp resize behaviour for a source image of
width `srcWidth` when enlargement is disallowed — a breakpoint at or above the
source width fails ("image narrower than breakpoint, enlargement
disallowed"), a smaller breakpoint succeeds.  sharp itself is an external
library, absent from the repository. -/
def sharpResizeModel (srcWidth : Nat) (bp : Nat) : Except Err ResizeResult :=
  if srcWidth ≤ bp then .error "enlargement disallowed"
  else .ok ⟨bp, bp, bp⟩

/- ### generateFileHash (upload service, image-processing.ts lines 500-502) -/

/-- The suffix preparation `uuidv4().replace(dash, empty)` applied globally:
every dash in the random identifier is stripped. -/
def stripDashes (s : String) : String :=
  ⟨s.data.filter (fun ch => ch ≠ '-')⟩

/-- Translation of `generateFileHash`: the basename, an underscore separator,
and the dash-stripped random suffix.  The randomness source is passed in as
`uuid`; no lookup against the metadata store occurs (the function takes no
store argument). -/
def generateFileHash (basename : String) (uuid : String) : String :=
  basename ++ "_" ++ stripDashes uuid

/-- The JS `mime.startsWith(p)` test, written over the character lists so the
kernel can evaluate it. -/
def strStartsWith (s p : String) : Bool :=
  p.data.isPrefixOf s.data

/- ### processImage (image-processing.ts lines 157-236) -/

/-- Descriptor recorded under a `formats` key: the `sharp.OutputInfo` fields
the source copies into the variant entry (`width`, `height`, `size`). -/
structure VariantInfo where
  width : Nat
  height : Nat
  size : Nat
  deriving Repr, DecidableEq

/-- The `Partial<UploadableFile>` update that `processImage` returns: the
derived `formats` entries and, when optimization shrank the file, the new
`size`. -/
structure ProcessedUpdate where
  formats : List (String × VariantInfo)
  size : Option Nat
  deriving Repr, DecidableEq

/-- Per-file outcomes of the sharp-backed steps that `processImage` invokes:
`generateThumbnail` and `optimizeImage` may throw; `generateResponsiveImages`
is total (claim C3) and delivers a finished association list. -/
structure ProcessEnv where
  generateThumbnails : Bool
  thumbnail : Except Err VariantInfo
  responsive : List (String × VariantInfo)
  optimizedSize : Except Err Nat

/-- Translation of `processImage`.  A non-image MIME type or a format outside
`FORMATS_TO_PROCESS` returns an empty update; otherwise the thumbnail (when
enabled), the responsive set (unless `options.responsive === false`), and the
optimization of the primary artifact run in sequence inside one try block —
any hard failure is rewrapped as "Image processing failed: ...", and `size`
is set only when the optimized byte count is strictly below the original. -/
def processImage (env : ProcessEnv) (respEnabled : Bool) (mime ext : String)
    (fileSize : Nat) : Except Err ProcessedUpdate :=
  if ¬ strStartsWith mime "image/" then .ok ⟨[], none⟩
  else
    let format := extToFormat ext
    if ¬ FORMATS_TO_PROCESS.contains format then .ok ⟨[], none⟩
    else
      let thumbStep : Except Err (List (String × VariantInfo)) :=
        if env.generateThumbnails then
          match env.thumbnail with
          | .error e => .error e
          | .ok t => .ok [("thumbnail", t)]
        else .ok []
      match thumbStep with
      | .error e => .error ("Image processing failed: " ++ e)
      | .ok fmts1 =>
        let fmts2 := if respEnabled then fmts1 ++ env.responsive else fmts1
        if isOptimizableFormat format then
          match env.optimizedSize with
          | .error e => .error ("Image processing failed: " ++ e)
          | .ok optSize =>
            .ok ⟨fmts2, if optSize < fileSize then some optSize else none⟩
        else .ok ⟨fmts2, none⟩

/-- The size the entity carries after `Object.assign(fileEntity, processedFile)`:
the updated size when the update holds one, the original size otherwise. -/
def recordedSize (res : ProcessedUpdate) (origSize : Nat) : Nat :=
  match res.size with
  | some s => s
  | none => origSize

/- ### Metadata store model (database.ts) -/

/-- A stored folder record: `id`, `name`, `path`, optional `parent` id
(timestamps omitted — no claim reads them). -/
structure FileFolder where
  id : String
  name : String
  path : String
  parent : Option String
  deriving Repr, DecidableEq

/-- A stored file record, reduced to the fields the folder operations read:
its `id` and the owning folder id. -/
structure FileRec where
  id : String
  folder : Option String
  deriving Repr, DecidableEq

/-- The Prisma-backed metadata store: the `file` and `folder` tables. -/
structure Store where
  files : List FileRec
  folders : List FileFolder
  deriving Repr, DecidableEq

/-- Translation of `DatabaseService.getFolder`: `findUnique` by id. -/
def getFolder (db : Store) (id : String) : Option FileFolder :=
  db.folders.find? (fun f => f.id == id)

/-- Translation of `DatabaseService.createFolder` (database.ts lines 140-165):
the parent is looked up when an id is supplied, and the new folder's `path` is
computed once at creation as `parent.path + "/" + name`, or `"/" + name` when
there is no parent (or the parent lookup finds nothing).  The record id is
generated by the database; it is passed in as `newId`. -/
def createFolder (db : Store) (name : String) (parent : Option String)
    (newId : String) : FileFolder × Store :=
  let parentFolder :=
    match parent with
    | some p => getFolder db p
    | none => none
  let path :=
    match parentFolder with
    | some pf => pf.path ++ "/" ++ name
    | none => "/" ++ name
  let folder : FileFolder := ⟨newId, name, path, parent⟩
  (folder, { db with folders := db.folders ++ [folder] })

/-- Translation of `DatabaseService.deleteFolder` (database.ts lines 207-236):
a folder with direct file children or direct subfolder children is refused
with a conflict error and nothing changes; otherwise the unique record is
deleted (Prisma raises when no record matches, which the catch block
rethrows). -/
def deleteFolder (db : Store) (id : String) : Except Err Bool × Store :=
  let filesCount := (db.files.filter (fun f => f.folder == some id)).length
  if filesCount > 0 then
    (.error "Cannot delete folder that contains files", db)
  else
    let subFoldersCount := (db.folders.filter (fun f => f.parent == some id)).length
    if subFoldersCount > 0 then
      (.error "Cannot delete folder that contains subfolders", db)
    else
      match getFolder db id with
      | none => (.error "Record to delete does not exist", db)
      | some _ => (.ok true, { db with folders := db.folders.filter (fun f => f.id != id) })

/-- Translation of `UploadService.getFolderPath` (image-processing.ts lines
553-563): no folder id resolves to the root path `"/"`; otherwise the folder
is looked up and `folder?.path || '/'` is returned — an absent record, like a
falsy (empty) stored path, falls back to `"/"`. -/
def getFolderPath (db : Store) (folderId : Option String) : String :=
  match folderId with
  | none => "/"
  | some fid =>
    match getFolder db fid with
    | some f => if f.path = "" then "/" else f.path
    | none => "/"

/- ### File deletion (upload service and file routes) -/

/-- Boolean success test on an `Except` outcome, the `status === 'fulfilled'`
check of `Promise.allSettled`. -/
def isOkB {α : Type} : Except Err α → Bool
  | .ok _ => true
  | .error _ => false

/-- Translation of `UploadService.deleteFile` (image-processing.ts lines
638-657): an id with no stored record throws "File not found"; otherwise the
backend delete and the metadata delete run in order, any failure is rethrown,
and the call returns `true`. -/
def deleteFileService (getFile : String → Option FileRec)
    (storageDelete : FileRec → Except Err Unit)
    (dbDeleteFile : String → Except Err Bool)
    (id : String) : Except Err Bool :=
  match getFile id with
  | none => .error "File not found"
  | some file =>
    match storageDelete file with
    | .error e => .error e
    | .ok _ =>
      match dbDeleteFile id with
      | .error e => .error e
      | .ok _ => .ok true

/-- Outward result of the single-file delete route: success, the not-found
mapping of a `false` service return, or the catch-all error response. -/
inductive DeleteResponse where
  | okResp
  | notFound
  | badRequest (msg : Err)
  deriving Repr, DecidableEq

/-- Translation of the `router.delete('/:id')` handler (image-processing.ts
lines 375-405): a missing id is a bad request; a thrown service error becomes
the catch-all response; a `false` service return maps to not-found. -/
def deleteFileHandler (svc : String → Except Err Bool) (id : Option String) :
    DeleteResponse :=
  match id with
  | none => .badRequest "File ID is required"
  | some i =>
    match svc i with
    | .error e => .badRequest e
    | .ok deleted => if deleted then .okResp else .notFound

/-- Aggregate reported by the bulk delete route. -/
structure BulkDeleteSummary where
  successful : Nat
  failed : Nat
  total : Nat
  deriving Repr, DecidableEq

/-- Translation of the `router.delete('/')` bulk handler (image-processing.ts
lines 408-441): an empty id list is refused; otherwise every id's deletion is
dispatched and all outcomes are awaited (`Promise.allSettled`), fulfilled and
rejected outcomes are counted, and the aggregate is returned without
raising. -/
def bulkDeleteHandler (del : String → Except Err Bool) (ids : List String) :
    Except Err BulkDeleteSummary :=
  if ids.isEmpty then .error "File IDs array is required"
  else
    let results := ids.map del
    let successful := (results.filter (fun r => isOkB r)).length
    let failed := (results.filter (fun r => !(isOkB r))).length
    .ok ⟨successful, failed, ids.length⟩

/- ### Upload orchestrator (UploadService.uploadFiles, image-processing.ts
lines 565-623) -/

/-- A raw multer file as the batch receives it. -/
structure RawFile where
  originalname : String
  mimetype : String
  size : Nat
  deriving Repr, DecidableEq

/-- The canonical entity the per-file pipeline builds and persists (reduced to
the identity-bearing fields). -/
structure FileEntity where
  name : String
  hash : String
  ext : String
  mime : String
  size : Nat
  folderPath : String
  deriving Repr, DecidableEq

/-- Observable world the batch acts on: the metadata records persisted so far,
the artifacts held by the storage backend, ledgers of every backend delete and
metadata delete performed (batch upload performs none), and the temporary
directories alive on disk (fresh names come from `nextTmp`). -/
structure WorldState where
  persisted : List FileEntity
  backendStored : List String
  backendDeleted : List String
  metadataDeleted : List String
  tmpDirs : List Nat
  nextTmp : Nat
  deriving Repr, DecidableEq

/-- Outcomes of the effectful collaborators each pipeline stage calls, one
oracle per stage; `removeTmpOk` is whether the deferred `fse.remove` of the
temporary directory succeeds. -/
structure BatchEnv where
  validateFile : RawFile → Except Err Unit
  formatFileInfo : RawFile → Except Err FileEntity
  processImageStep : FileEntity → Except Err FileEntity
  upload : FileEntity → Except Err Unit
  saveFile : FileEntity → Except Err FileEntity
  removeTmpOk : Bool

/-- How far one file's pipeline got: a failure before the backend upload took
effect, a failure after it (the artifact is in the backend, no metadata
record), or full success with the saved entity. -/
inductive StageOutcome where
  | failedBeforeUpload (e : Err)
  | failedAfterUpload (hash : String) (e : Err)
  | succeeded (hash : String) (saved : FileEntity)
  deriving Repr, DecidableEq

/-- One iteration of the `for` body in `uploadFiles`: validate, build the
entity, process it when its MIME type is an image type, upload to the storage
backend, save to the database.  The first stage to raise ends the file. -/
def runFilePipeline (env : BatchEnv) (f : RawFile) : StageOutcome :=
  match env.validateFile f with
  | .error e => .failedBeforeUpload e
  | .ok _ =>
    match env.formatFileInfo f with
    | .error e => .failedBeforeUpload e
    | .ok ent =>
      match (if strStartsWith ent.mime "image/" then env.processImageStep ent else .ok ent) with
      | .error e => .failedBeforeUpload e
      | .ok ent2 =>
        match env.upload ent2 with
        | .error e => .failedBeforeUpload e
        | .ok _ =>
          match env.saveFile ent2 with
          | .error e => .failedAfterUpload ent2.hash e
          | .ok saved => .succeeded ent2.hash saved

/-- The world effects a pipeline outcome leaves behind: a backend upload that
completed stays in the backend, a save that completed stays persisted, and
nothing is ever removed. -/
def applyOutcome (st : WorldState) : StageOutcome → WorldState
  | .failedBeforeUpload _ => st
  | .failedAfterUpload h _ => { st with backendStored := st.backendStored ++ [h] }
  | .succeeded h saved =>
    { st with backendStored := st.backendStored ++ [h],
              persisted := st.persisted ++ [saved] }

/-- The value or error one file's pipeline hands back to the loop. -/
def outcomeResult : StageOutcome → Except Err FileEntity
  | .failedBeforeUpload e => .error e
  | .failedAfterUpload _ e => .error e
  | .succeeded _ saved => .ok saved

/-- The per-file pipeline's returned value or propagated error. -/
def pipelineOutcome (env : BatchEnv) (f : RawFile) : Except Err FileEntity :=
  outcomeResult (runFilePipeline env f)

/-- The `for (const file of files)` loop of `uploadFiles`: strictly
sequential, accumulating saved entities, stopping at the first file whose
pipeline raises and handing that error up unchanged. -/
def uploadLoop (env : BatchEnv) :
    List RawFile → WorldState → List FileEntity →
    Except Err (List FileEntity) × WorldState
  | [], st, acc => (.ok acc, st)
  | f :: rest, st, acc =>
    let o := runFilePipeline env f
    let st' := applyOutcome st o
    match outcomeResult o with
    | .error e => (.error e, st')
    | .ok saved => uploadLoop env rest st' (acc ++ [saved])

/-- Translation of `uploadFiles`: acquire a fresh temporary working directory,
run the loop inside `try`, rethrow any error unchanged (`catch` only logs),
and in `finally` attempt to remove the temporary directory — a removal
failure is logged and swallowed, never altering the returned value. -/
def uploadFiles (env : BatchEnv) (files : List RawFile) (st : WorldState) :
    Except Err (List FileEntity) × WorldState :=
  let tmp := st.nextTmp
  let stAcq := { st with tmpDirs := st.tmpDirs ++ [tmp], nextTmp := st.nextTmp + 1 }
  let r := uploadLoop env files stAcq []
  let stFin :=
    if env.removeTmpOk then { r.2 with tmpDirs := r.2.tmpDirs.erase tmp } else r.2
  (r.1, stFin)

/-- The entities the per-file pipelines of `files` save, in order. -/
def savedEntities (env : BatchEnv) (files : List RawFile) : List FileEntity :=
  files.filterMap (fun g => (pipelineOutcome env g).toOption)

/-- The world after the per-file pipelines of `files` have run in order. -/
def applyBatch (env : BatchEnv) (st : WorldState) (files : List RawFile) : WorldState :=
  files.foldl (fun s g => applyOutcome s (runFilePipeline env g)) st

/- ### Concrete instances used by the witnesses -/

/-- A batch environment for the witnesses: validation admits files of at most
100 bytes, entity building always succeeds, image processing, the backend and
the database all succeed, and temporary-directory removal succeeds. -/
def demoEnv : BatchEnv where
  validateFile := fun f =>
    if f.size ≤ 100 then .ok () else .error "File size exceeds maximum allowed size"
  formatFileInfo := fun f =>
    .ok ⟨f.originalname, f.originalname ++ "_deadbeef", ".bin", f.mimetype, f.size, "/"⟩
  processImageStep := fun ent => .ok ent
  upload := fun _ => .ok ()
  saveFile := fun ent => .ok ent
  removeTmpOk := true

/-- An empty world. -/
def initialWorld : WorldState := ⟨[], [], [], [], [], 0⟩

/-- A small raw file the demo validation accepts. -/
def demoFileA : RawFile := ⟨"a.bin", "application/octet-stream", 10⟩

/-- An oversized raw file the demo validation rejects. -/
def demoFileBad : RawFile := ⟨"b.bin", "application/octet-stream", 200⟩

/-- A second small raw file, queued after the failing one. -/
def demoFileC : RawFile := ⟨"c.bin", "application/octet-stream", 20⟩

/-- A store with folder "A" at "/docs" and its child "B" at "/docs/img". -/
def demoStore : Store :=
  ⟨[], [⟨"A", "docs", "/docs", none⟩, ⟨"B", "img", "/docs/img", some "A"⟩]⟩

/-- A store where folder "P" holds one file and one subfolder and folder "E"
is empty. -/
def demoStoreWithChildren : Store :=
  ⟨[⟨"f1", some "P"⟩],
   [⟨"P", "p", "/p", none⟩, ⟨"C", "c", "/p/c", some "P"⟩, ⟨"E", "e", "/e", none⟩]⟩

/-- A per-id deletion oracle that fails exactly on id "B". -/
def demoDelete (id : String) : Except Err Bool :=
  if id = "B" then .error "Storage delete failed" else .ok true

end MediaUpload

namespace MediaUpload

/- ### Theorems -/

/-- Helper: unfolding the fold in `generateResponsiveImages` into a
`filterMap` over the breakpoints, for any accumulator. -/
theorem generateResponsiveImages_foldl (resize : Nat → Except Err ResizeResult) :
    ∀ (bps : List Nat) (acc : List (String × ResizeResult)),
      bps.foldl
        (fun acc bp =>
          match resize bp with
          | .ok r => acc ++ [("w" ++ toString bp, r)]
          | .error _ => acc)
        acc =
      acc ++ bps.filterMap
        (fun bp =>
          match resize bp with
          | .ok r => some ("w" ++ toString bp, r)
          | .error _ => none)
  | [], acc => by simp
  | bp :: bps, acc => by
    cases h : resize bp with
    | ok r =>
      simp only [List.foldl_cons, List.filterMap_cons, h]
      rw [generateResponsiveImages_foldl resize bps (acc ++ [("w" ++ toString bp, r)])]
      simp
    | error e =>
      simp only [List.foldl_cons, List.filterMap_cons, h]
      exact generateResponsiveImages_foldl resize bps acc

/-- Claim C3: `generateResponsiveImages` never raises — it is a total function
whose result is exactly the possibly-incomplete map of the breakpoints whose
resize succeeded (each failure is skipped without aborting the rest); and with
breakpoints `[480, 768, 1024, 1920]` against a 300px-wide source with
enlargement disallowed, the returned map is empty (every breakpoint ≥ 300 is
skipped). -/
theorem generateResponsiveImages_skip_policy :
    (∀ (resize : Nat → Except Err ResizeResult) (bps : List Nat),
      generateResponsiveImages resize bps =
        bps.filterMap
          (fun bp =>
            match resize bp with
            | .ok r => some ("w" ++ toString bp, r)
            | .error _ => none)) ∧
    generateResponsiveImages (sharpResizeModel 300) [480, 768, 1024, 1920] = [] := by
  constructor
  · intro resize bps
    unfold generateResponsiveImages
    rw [generateResponsiveImages_foldl resize bps []]
    simp
  · rfl

/-- Claim C4 counterexample: the claimed size bound "`optimizeImage` on an
optimizable format never produces output larger than the input" is false of
the code — `optimizeImage` returns whatever the format-specific re-encode
produces, with no size cap, and a re-encoder is free to emit a larger buffer
(as real encoders do at fixed quality settings).  Concretely, with a
re-encoder that doubles the buffer, a jpeg input of one byte comes back with
two. -/
theorem optimizeImage_size_claim_false :
    ¬ (∀ (enc : String → Bytes → Bytes) (optFormat : Option String) (ext : String)
        (input : Bytes),
        isOptimizableFormat (resolveFormat optFormat ext) = true →
        (optimizeImage enc optFormat ext input).length ≤ input.length) := by
  intro h
  have h2 := h (fun _ b => b ++ b) (some "jpeg") ".jpg" [7] (by decide)
  simp [optimizeImage, resolveFormat, isOptimizableFormat, FORMATS_TO_OPTIMIZE] at h2

/-- Claim C4 (amended): `optimizeImage` on a format outside the optimizable
set returns the input bytes unchanged (no re-encode operation is installed);
on a format in the optimizable set it returns exactly the re-encoder's output,
on whose size the function itself imposes no bound. -/
theorem optimizeImage_unsupported_unchanged (enc : String → Bytes → Bytes)
    (optFormat : Option String) (ext : String) (input : Bytes) :
    (isOptimizableFormat (resolveFormat optFormat ext) = false →
      optimizeImage enc optFormat ext input = input) ∧
    (isOptimizableFormat (resolveFormat optFormat ext) = true →
      optimizeImage enc optFormat ext input = enc (resolveFormat optFormat ext) input) := by
  constructor
  · intro hf
    simp [optimizeImage, hf]
  · intro ht
    simp [optimizeImage, ht]

/-- Witness for C4's amended theorem: a gif file passes through byte-for-byte
even under a buffer-doubling re-encoder, while a jpeg file is handed to the
re-encoder. -/
theorem optimizeImage_unsupported_unchanged_example :
    optimizeImage (fun _ b => b ++ b) none ".gif" [1, 2] = [1, 2] ∧
    optimizeImage (fun _ b => b ++ b) none ".jpeg" [1, 2] = [1, 2, 1, 2] := by
  constructor
  · exact (optimizeImage_unsupported_unchanged (fun _ b => b ++ b) none ".gif" [1, 2]).1
      (by decide)
  · exact (optimizeImage_unsupported_unchanged (fun _ b => b ++ b) none ".jpeg" [1, 2]).2
      (by decide)

/-- Claim C9: the file hash is the basename, a separator, and the
dash-stripped random suffix, built with no store lookup; two upload calls with
the same base filename whose random suffixes differ produce different hash
values. -/
theorem generateFileHash_distinct (basename u1 u2 : String)
    (h : stripDashes u1 ≠ stripDashes u2) :
    generateFileHash basename u1 = basename ++ "_" ++ stripDashes u1 ∧
    generateFileHash basename u1 ≠ generateFileHash basename u2 := by
  refine ⟨rfl, ?_⟩
  intro heq
  apply h
  have hd := congrArg String.data heq
  simp only [generateFileHash, String.data_append, List.append_assoc] at hd
  exact String.ext (List.append_cancel_left (List.append_cancel_left hd))

/-- Witness for C9: two concrete calls sharing the basename "photo" with
distinct random suffixes yield distinct hash values. -/
theorem generateFileHash_distinct_example :
    generateFileHash "photo" "ab-cd" = "photo" ++ "_" ++ stripDashes "ab-cd" ∧
    generateFileHash "photo" "ab-cd" ≠ generateFileHash "photo" "ef-01" :=
  generateFileHash_distinct "photo" "ab-cd" "ef-01" (by decide)

/-- Helper: the size an entity records after the update is applied never
exceeds the original when every updated size is strictly smaller. -/
theorem recordedSize_le_of_lt (res : ProcessedUpdate) (fileSize : Nat)
    (h : ∀ s, res.size = some s → s < fileSize) :
    recordedSize res fileSize ≤ fileSize := by
  cases hs : res.size with
  | none => simp [recordedSize, hs]
  | some s => simpa [recordedSize, hs] using Nat.le_of_lt (h s hs)

/-- Claim C5: when `processImage` succeeds, the `size` it reports is set only
when the optimized byte count is strictly smaller than the original, so the
size recorded on the entity afterwards is at most the original — and the
size is left untouched whenever the file's format is not optimizable. -/
theorem processImage_size_update (env : ProcessEnv) (respEnabled : Bool) (mime ext : String)
    (fileSize : Nat) (res : ProcessedUpdate)
    (h : processImage env respEnabled mime ext fileSize = .ok res) :
    recordedSize res fileSize ≤ fileSize ∧
    (∀ s, res.size = some s → s < fileSize) ∧
    (isOptimizableFormat (extToFormat ext) = false → res.size = none) := by
  simp only [processImage] at h
  split at h
  · cases h; simp [recordedSize]
  · split at h
    · cases h; simp [recordedSize]
    · split at h
      · exact absurd h (by simp)
      · split at h
        · split at h
          · exact absurd h (by simp)
          · rename_i optSize heq
            cases h
            have hforall : ∀ s, (if optSize < fileSize then some optSize else none) =
                some s → s < fileSize := by
              intro s hs
              by_cases hc : optSize < fileSize <;> simp [hc] at hs
              omega
            refine ⟨recordedSize_le_of_lt _ _ (fun s hs => hforall s hs),
              fun s hs => hforall s hs, ?_⟩
            intro hfalse
            exact absurd ‹isOptimizableFormat (extToFormat ext) = true›
              (by simp [hfalse])
        · cases h
          refine ⟨le_refl _, ?_, fun _ => rfl⟩
          intro s hs
          cases hs

/-- Witness for C5: a jpeg of 10 bytes whose optimization yields 5 bytes gets
its size updated to 5, below the original. -/
theorem processImage_size_update_example :
    recordedSize ⟨[("thumbnail", ⟨150, 150, 12⟩), ("w480", ⟨480, 320, 40⟩)], some 5⟩ 10 ≤ 10 ∧
    (5 : Nat) < 10 := by
  have h := processImage_size_update
    ⟨true, .ok ⟨150, 150, 12⟩, [("w480", ⟨480, 320, 40⟩)], .ok 5⟩
    true "image/jpeg" ".jpeg" 10
    ⟨[("thumbnail", ⟨150, 150, 12⟩), ("w480", ⟨480, 320, 40⟩)], some 5⟩
    rfl
  exact ⟨h.1, h.2.1 5 rfl⟩

/-- Claim C6: folder path resolution is compositional and root-defaulting —
no folder id resolves to "/", a parentless folder is created at `"/" + name`,
a folder created under parent A is created at `A.path + "/" + name` from A's
path as stored at creation time, and a file dropped into folder B receives
B's stored path. -/
theorem folderPath_resolution (db : Store) (name newId A B : String)
    (fA fB : FileFolder)
    (hA : getFolder db A = some fA) (hB : getFolder db B = some fB)
    (hpath : fB.path ≠ "") :
    getFolderPath db none = "/" ∧
    (createFolder db name none newId).1.path = "/" ++ name ∧
    (createFolder db name (some A) newId).1.path = fA.path ++ "/" ++ name ∧
    getFolderPath db (some B) = fB.path := by
  refine ⟨rfl, rfl, ?_, ?_⟩
  · simp [createFolder, hA]
  · simp [getFolderPath, hB, hpath]

/-- Witness for C6 on a concrete store holding "/docs" and its child
"/docs/img". -/
theorem folderPath_resolution_example :
    getFolderPath demoStore none = "/" ∧
    (createFolder demoStore "new" none "N").1.path = "/" ++ "new" ∧
    (createFolder demoStore "new" (some "A") "N").1.path = "/docs" ++ "/" ++ "new" ∧
    getFolderPath demoStore (some "B") = "/docs/img" :=
  folderPath_resolution demoStore "new" "N" "A" "B"
    ⟨"A", "docs", "/docs", none⟩ ⟨"B", "img", "/docs/img", some "A"⟩
    (by decide) (by decide) (by decide)

/-- Helper: a filter and its complement split a list's length. -/
theorem length_filter_split {α : Type} (p : α → Bool) :
    ∀ l : List α, (l.filter p).length + (l.filter (fun a => !(p a))).length = l.length
  | [] => rfl
  | a :: l => by
    have ih := length_filter_split p l
    cases hp : p a <;> simp [List.filter_cons, hp] <;> omega

/-- Claim C7: the bulk delete handler never raises on a nonempty id list —
each id's deletion outcome is counted independently of its siblings, the
aggregate reports exactly the fulfilled and rejected counts, and they sum to
the number of submitted ids. -/
theorem bulkDelete_aggregate (del : String → Except Err Bool) (ids : List String)
    (h : ids ≠ []) :
    bulkDeleteHandler del ids =
      .ok ⟨(ids.filter (fun i => isOkB (del i))).length,
           (ids.filter (fun i => !(isOkB (del i)))).length,
           ids.length⟩ ∧
    (ids.filter (fun i => isOkB (del i))).length +
      (ids.filter (fun i => !(isOkB (del i)))).length = ids.length := by
  refine ⟨?_, length_filter_split _ ids⟩
  cases ids with
  | nil => exact absurd rfl h
  | cons a l =>
    simp only [bulkDeleteHandler, List.isEmpty_cons, Bool.false_eq_true, if_false,
      List.filter_map, List.length_map]
    rfl

/-- Witness for C7: deleting ids [A, B, C] where only B's deletion fails
returns the aggregate (2 successful, 1 failed, 3 total) without raising. -/
theorem bulkDelete_aggregate_example :
    bulkDeleteHandler demoDelete ["A", "B", "C"] = .ok ⟨2, 1, 3⟩ ∧
    2 + 1 = 3 := by
  have h := bulkDelete_aggregate demoDelete ["A", "B", "C"] (by decide)
  exact ⟨h.1, h.2⟩

/-- Claim C8: deleting a folder with no direct file children and no direct
subfolder children succeeds and removes exactly its record; deleting a folder
with at least one direct child raises a conflict error and leaves the store —
the folder record included — unchanged. -/
theorem deleteFolder_conflict_policy (db : Store) (id : String) (fl : FileFolder)
    (hmem : getFolder db id = some fl) :
    ((db.files.filter (fun f => f.folder == some id)).length = 0 →
     (db.folders.filter (fun f => f.parent == some id)).length = 0 →
     deleteFolder db id =
       (.ok true, { db with folders := db.folders.filter (fun f => f.id != id) })) ∧
    (((db.files.filter (fun f => f.folder == some id)).length > 0 ∨
      (db.folders.filter (fun f => f.parent == some id)).length > 0) →
     (∃ e, (deleteFolder db id).1 = .error e) ∧ (deleteFolder db id).2 = db) := by
  constructor
  · intro hfiles hsub
    simp [deleteFolder, hfiles, hsub, hmem]
  · intro hchild
    by_cases hf : (db.files.filter (fun f => f.folder == some id)).length > 0
    · refine ⟨⟨"Cannot delete folder that contains files", ?_⟩, ?_⟩ <;>
        simp [deleteFolder, hf]
    · have hs : (db.folders.filter (fun f => f.parent == some id)).length > 0 := by
        rcases hchild with hc | hc
        · exact absurd hc hf
        · exact hc
      refine ⟨⟨"Cannot delete folder that contains subfolders", ?_⟩, ?_⟩ <;>
        simp [deleteFolder, hf, hs]

/-- Witness for C8: in a store where folder P holds a file and a subfolder
while folder E is empty, deleting E succeeds and removes its record, deleting
P errors and changes nothing. -/
theorem deleteFolder_conflict_policy_example :
    deleteFolder demoStoreWithChildren "E" =
      (.ok true, { demoStoreWithChildren with
        folders := demoStoreWithChildren.folders.filter (fun f => f.id != "E") }) ∧
    (∃ e, (deleteFolder demoStoreWithChildren "P").1 = .error e) ∧
    (deleteFolder demoStoreWithChildren "P").2 = demoStoreWithChildren := by
  refine ⟨?_, ?_⟩
  · exact (deleteFolder_conflict_policy demoStoreWithChildren "E"
      ⟨"E", "e", "/e", none⟩ (by decide)).1 (by decide) (by decide)
  · exact (deleteFolder_conflict_policy demoStoreWithChildren "P"
      ⟨"P", "p", "/p", none⟩ (by decide)).2 (Or.inl (by decide))

/-- Claim C10: `UploadService.deleteFile` never returns `false` — an unknown
id throws "File not found" rather than returning `false`, an existing record
yields `true` or a rethrown failure, and therefore the route branch mapping a
`false` return to a not-found response can never be taken. -/
theorem deleteFile_never_false (getFile : String → Option FileRec)
    (storageDelete : FileRec → Except Err Unit)
    (dbDeleteFile : String → Except Err Bool) :
    (∀ i, getFile i = none →
      deleteFileService getFile storageDelete dbDeleteFile i = .error "File not found") ∧
    (∀ i b, deleteFileService getFile storageDelete dbDeleteFile i = .ok b → b = true) ∧
    (∀ oid, deleteFileHandler (deleteFileService getFile storageDelete dbDeleteFile) oid ≠
      DeleteResponse.notFound) := by
  have hkey : ∀ i b, deleteFileService getFile storageDelete dbDeleteFile i = .ok b →
      b = true := by
    intro i b hib
    simp only [deleteFileService] at hib
    split at hib
    · cases hib
    · split at hib
      · cases hib
      · split at hib
        · cases hib
        · cases hib
          rfl
  refine ⟨?_, hkey, ?_⟩
  · intro i hi
    simp [deleteFileService, hi]
  · intro oid
    cases oid with
    | none => simp [deleteFileHandler]
    | some i =>
      cases hsvc : deleteFileService getFile storageDelete dbDeleteFile i with
      | error e => simp [deleteFileHandler, hsvc]
      | ok b => simp [deleteFileHandler, hsvc, hkey i b hsvc]

/-- Witness for C10: with no stored records the service throws "File not
found" for the id "x"; with a stored record "a" and successful backend and
metadata deletes the route never answers not-found. -/
theorem deleteFile_never_false_example :
    deleteFileService (fun _ => none) (fun _ => .ok ()) (fun _ => .ok true) "x" =
      .error "File not found" ∧
    deleteFileHandler
      (deleteFileService (fun i => if i = "a" then some ⟨"a", none⟩ else none)
        (fun _ => .ok ()) (fun _ => .ok true))
      (some "a") ≠ DeleteResponse.notFound := by
  refine ⟨?_, ?_⟩
  · exact (deleteFile_never_false (fun _ => none) (fun _ => .ok ())
      (fun _ => .ok true)).1 "x" rfl
  · exact (deleteFile_never_false (fun i => if i = "a" then some ⟨"a", none⟩ else none)
      (fun _ => .ok ()) (fun _ => .ok true)).2.2 (some "a")

/-- Helper: the world fields one pipeline outcome can touch — persisted
records grow by exactly the saved entity (if any), the backend ledger only
grows, and temporary directories and the delete ledgers are untouched. -/
theorem applyOutcome_fields (st : WorldState) (o : StageOutcome) :
    (applyOutcome st o).persisted = st.persisted ++ (outcomeResult o).toOption.toList ∧
    (applyOutcome st o).tmpDirs = st.tmpDirs ∧
    (applyOutcome st o).nextTmp = st.nextTmp ∧
    (applyOutcome st o).backendDeleted = st.backendDeleted ∧
    (applyOutcome st o).metadataDeleted = st.metadataDeleted ∧
    (∃ l, (applyOutcome st o).backendStored = st.backendStored ++ l) := by
  cases o with
  | failedBeforeUpload e =>
    exact ⟨by simp [applyOutcome, outcomeResult, Except.toOption],
      rfl, rfl, rfl, rfl, [], by simp [applyOutcome]⟩
  | failedAfterUpload h e =>
    exact ⟨by simp [applyOutcome, outcomeResult, Except.toOption],
      rfl, rfl, rfl, rfl, [h], rfl⟩
  | succeeded h saved =>
    exact ⟨by simp [applyOutcome, outcomeResult, Except.toOption],
      rfl, rfl, rfl, rfl, [h], rfl⟩

/-- Helper: the loop of `uploadFiles` never touches the temporary-directory
set, the next fresh name, or the delete ledgers, and only appends to the
backend. -/
theorem uploadLoop_fields (env : BatchEnv) :
    ∀ (files : List RawFile) (st : WorldState) (acc : List FileEntity),
      (uploadLoop env files st acc).2.tmpDirs = st.tmpDirs ∧
      (uploadLoop env files st acc).2.nextTmp = st.nextTmp ∧
      (uploadLoop env files st acc).2.backendDeleted = st.backendDeleted ∧
      (uploadLoop env files st acc).2.metadataDeleted = st.metadataDeleted ∧
      (∃ l, (uploadLoop env files st acc).2.backendStored = st.backendStored ++ l)
  | [], st, acc => ⟨rfl, rfl, rfl, rfl, [], by simp [uploadLoop]⟩
  | f :: rest, st, acc => by
    obtain ⟨hp, ht, hn, hb, hm, l1, hs⟩ := applyOutcome_fields st (runFilePipeline env f)
    simp only [uploadLoop]
    cases ho : outcomeResult (runFilePipeline env f) with
    | error e =>
      exact ⟨ht, hn, hb, hm, l1, hs⟩
    | ok saved =>
      obtain ⟨ht2, hn2, hb2, hm2, l2, hs2⟩ :=
        uploadLoop_fields env rest (applyOutcome st (runFilePipeline env f)) (acc ++ [saved])
      refine ⟨ht2.trans ht, hn2.trans hn, hb2.trans hb, hm2.trans hm, l1 ++ l2, ?_⟩
      rw [hs2, hs, List.append_assoc]

/-- Helper: the world after a run of all-succeeding pipelines — the persisted
records grow by exactly the saved entities, in order, and nothing else
observable changes except backend growth. -/
theorem applyBatch_fields (env : BatchEnv) :
    ∀ (files : List RawFile) (st : WorldState),
      (applyBatch env st files).persisted = st.persisted ++ savedEntities env files ∧
      (applyBatch env st files).tmpDirs = st.tmpDirs ∧
      (applyBatch env st files).nextTmp = st.nextTmp ∧
      (applyBatch env st files).backendDeleted = st.backendDeleted ∧
      (applyBatch env st files).metadataDeleted = st.metadataDeleted ∧
      (∃ l, (applyBatch env st files).backendStored = st.backendStored ++ l)
  | [], st => ⟨by simp [applyBatch, savedEntities], rfl, rfl, rfl, rfl, [], by
      simp [applyBatch]⟩
  | f :: rest, st => by
    obtain ⟨hp, ht, hn, hb, hm, l1, hs⟩ := applyOutcome_fields st (runFilePipeline env f)
    obtain ⟨hp2, ht2, hn2, hb2, hm2, l2, hs2⟩ :=
      applyBatch_fields env rest (applyOutcome st (runFilePipeline env f))
    have hstep : applyBatch env st (f :: rest) =
        applyBatch env (applyOutcome st (runFilePipeline env f)) rest := by
      simp [applyBatch]
    refine ⟨?_, ?_, ?_, ?_, ?_, ?_⟩
    · rw [hstep, hp2, hp]
      simp only [savedEntities, List.filterMap_cons, pipelineOutcome, List.append_assoc]
      cases ho : (outcomeResult (runFilePipeline env f)).toOption <;> simp [ho]
    · rw [hstep, ht2, ht]
    · rw [hstep, hn2, hn]
    · rw [hstep, hb2, hb]
    · rw [hstep, hm2, hm]
    · exact ⟨l1 ++ l2, by rw [hstep, hs2, hs, List.append_assoc]⟩

/-- Helper: a run of all-succeeding pipelines commutes past the loop — the
loop over `pre ++ rest` first accumulates `pre`'s saved entities and effects,
then continues with `rest`. -/
theorem uploadLoop_ok_front (env : BatchEnv) :
    ∀ (pre rest : List RawFile) (st : WorldState) (acc : List FileEntity),
      (∀ g ∈ pre, isOkB (pipelineOutcome env g) = true) →
      uploadLoop env (pre ++ rest) st acc =
        uploadLoop env rest (applyBatch env st pre) (acc ++ savedEntities env pre)
  | [], rest, st, acc, _ => by simp [applyBatch, savedEntities]
  | f :: pre, rest, st, acc, hpre => by
    have hf := hpre f (List.mem_cons_self f pre)
    obtain ⟨v, hv⟩ : ∃ v, outcomeResult (runFilePipeline env f) = .ok v := by
      cases ho : outcomeResult (runFilePipeline env f) with
      | error e => rw [pipelineOutcome, ho] at hf; cases hf
      | ok v => exact ⟨v, rfl⟩
    have hrec := uploadLoop_ok_front env pre rest
      (applyOutcome st (runFilePipeline env f)) (acc ++ [v])
      (fun g hg => hpre g (List.mem_cons_of_mem f hg))
    simp only [List.cons_append, uploadLoop, hv, List.append_eq]
    rw [hrec]
    have hbatch : applyBatch env st (f :: pre) =
        applyBatch env (applyOutcome st (runFilePipeline env f)) pre := by
      simp [applyBatch]
    have hsaved : savedEntities env (f :: pre) = v :: savedEntities env pre := by
      simp [savedEntities, List.filterMap_cons, pipelineOutcome, hv, Except.toOption]
    rw [hbatch, hsaved]
    simp

/-- Helper: a failing head file ends the loop at once with its own error and
only its own partial effects. -/
theorem uploadLoop_error_head (env : BatchEnv) (bad : RawFile) (post : List RawFile)
    (st : WorldState) (acc : List FileEntity) (e : Err)
    (hbad : pipelineOutcome env bad = .error e) :
    uploadLoop env (bad :: post) st acc =
      (.error e, applyOutcome st (runFilePipeline env bad)) := by
  rw [pipelineOutcome] at hbad
  simp only [uploadLoop, hbad]

/-- Claim C1: batch upload is fail-fast without rollback — with every file of
`pre` succeeding and `bad` failing with error `e`, the batch over
`pre ++ bad :: post` returns exactly `e` to the caller, the files after `bad`
are never processed (any `post` yields the identical result and world), the
entities persisted for `pre` stay persisted, and no compensating backend
delete or metadata delete happens. -/
theorem uploadFiles_failfast (env : BatchEnv) (pre : List RawFile) (bad : RawFile)
    (post : List RawFile) (st : WorldState) (e : Err)
    (hpre : ∀ g ∈ pre, isOkB (pipelineOutcome env g) = true)
    (hbad : pipelineOutcome env bad = .error e) :
    (uploadFiles env (pre ++ bad :: post) st).1 = .error e ∧
    (∀ post2, uploadFiles env (pre ++ bad :: post2) st =
      uploadFiles env (pre ++ bad :: post) st) ∧
    (uploadFiles env (pre ++ bad :: post) st).2.persisted =
      st.persisted ++ savedEntities env pre ∧
    (uploadFiles env (pre ++ bad :: post) st).2.backendDeleted = st.backendDeleted ∧
    (uploadFiles env (pre ++ bad :: post) st).2.metadataDeleted = st.metadataDeleted ∧
    (∃ l, (uploadFiles env (pre ++ bad :: post) st).2.backendStored =
      st.backendStored ++ l) := by
  have hloop : ∀ post2 : List RawFile,
      uploadLoop env (pre ++ bad :: post2)
        { st with tmpDirs := st.tmpDirs ++ [st.nextTmp], nextTmp := st.nextTmp + 1 } [] =
      (.error e,
        applyOutcome
          (applyBatch env
            { st with tmpDirs := st.tmpDirs ++ [st.nextTmp], nextTmp := st.nextTmp + 1 }
            pre)
          (runFilePipeline env bad)) := by
    intro post2
    rw [uploadLoop_ok_front env pre (bad :: post2) _ [] hpre,
      uploadLoop_error_head env bad post2 _ _ e hbad]
  obtain ⟨hbp, hbt, hbn, hbb, hbm, lb, hbs⟩ := applyBatch_fields env pre
    { st with tmpDirs := st.tmpDirs ++ [st.nextTmp], nextTmp := st.nextTmp + 1 }
  obtain ⟨hop, hot, hon, hob, hom, lo, hos⟩ := applyOutcome_fields
    (applyBatch env
      { st with tmpDirs := st.tmpDirs ++ [st.nextTmp], nextTmp := st.nextTmp + 1 } pre)
    (runFilePipeline env bad)
  refine ⟨?_, ?_, ?_, ?_, ?_, ?_⟩
  · simp only [uploadFiles, hloop post]
  · intro post2
    simp only [uploadFiles, hloop post, hloop post2]
  · simp only [uploadFiles, hloop post]
    cases henv : env.removeTmpOk <;>
      simp [henv, hop, hbp, pipelineOutcome] at * <;>
      simp [hop, hbp, ‹outcomeResult (runFilePipeline env bad) = Except.error e›,
        Except.toOption]
  · simp only [uploadFiles, hloop post]
    cases henv : env.removeTmpOk <;> simp [henv, hob, hbb]
  · simp only [uploadFiles, hloop post]
    cases henv : env.removeTmpOk <;> simp [henv, hom, hbm]
  · refine ⟨lb ++ lo, ?_⟩
    simp only [uploadFiles, hloop post]
    cases henv : env.removeTmpOk <;> simp [henv, hos, hbs, List.append_assoc]

/-- Witness for C1: in a batch [small, oversized, small], the oversized
second file's validation error comes back to the caller verbatim, the third
file might as well not have been submitted, the first file's entity stays
persisted, and the delete ledgers stay empty. -/
theorem uploadFiles_failfast_example :
    (uploadFiles demoEnv [demoFileA, demoFileBad, demoFileC] initialWorld).1 =
      .error "File size exceeds maximum allowed size" ∧
    uploadFiles demoEnv [demoFileA, demoFileBad] initialWorld =
      uploadFiles demoEnv [demoFileA, demoFileBad, demoFileC] initialWorld ∧
    (uploadFiles demoEnv [demoFileA, demoFileBad, demoFileC] initialWorld).2.persisted =
      initialWorld.persisted ++ savedEntities demoEnv [demoFileA] ∧
    (uploadFiles demoEnv [demoFileA, demoFileBad, demoFileC] initialWorld).2.backendDeleted =
      [] ∧
    (uploadFiles demoEnv [demoFileA, demoFileBad, demoFileC] initialWorld).2.metadataDeleted =
      [] := by
  have h := uploadFiles_failfast demoEnv [demoFileA] demoFileBad [demoFileC] initialWorld
    "File size exceeds maximum allowed size" (by decide) rfl
  exact ⟨h.1, h.2.1 [], h.2.2.1, h.2.2.2.1, h.2.2.2.2.1⟩

/-- Helper: whether the temporary-directory removal succeeds has no influence
on what the loop does — the oracles of the stages are untouched. -/
theorem uploadLoop_env_removeTmp (env : BatchEnv) (b : Bool) :
    ∀ (files : List RawFile) (st : WorldState) (acc : List FileEntity),
      uploadLoop { env with removeTmpOk := b } files st acc = uploadLoop env files st acc
  | [], _, _ => rfl
  | f :: rest, st, acc => by
    have henv : runFilePipeline { env with removeTmpOk := b } f = runFilePipeline env f := rfl
    simp only [uploadLoop, henv]
    cases ho : outcomeResult (runFilePipeline env f) with
    | error e => rfl
    | ok saved => exact uploadLoop_env_removeTmp env b rest _ _

/-- Claim C2: the temporary working directory acquired at batch start is gone
on every exit path of `uploadFiles` whenever its removal succeeds — the
result of the batch, success or error, plays no role — and a failure of the
removal itself is swallowed: the value returned to the caller is the same
whether the removal succeeds or fails. -/
theorem uploadFiles_cleanup (env : BatchEnv) (files : List RawFile) (st : WorldState)
    (h : st.nextTmp ∉ st.tmpDirs) :
    (env.removeTmpOk = true → (uploadFiles env files st).2.tmpDirs = st.tmpDirs) ∧
    (∀ b, (uploadFiles { env with removeTmpOk := b } files st).1 =
      (uploadFiles env files st).1) := by
  obtain ⟨ht, hn, hb, hm, l, hs⟩ := uploadLoop_fields env files
    { st with tmpDirs := st.tmpDirs ++ [st.nextTmp], nextTmp := st.nextTmp + 1 } []
  constructor
  · intro hrm
    simp only [uploadFiles, hrm, if_true]
    rw [ht]
    rw [List.erase_append_right _ h]
    simp
  · intro b
    simp only [uploadFiles, uploadLoop_env_removeTmp env b files]

/-- Witness for C2: a batch ending in a validation error still leaves no
temporary directory behind, and making the removal fail does not change the
error handed to the caller. -/
theorem uploadFiles_cleanup_example :
    (uploadFiles demoEnv [demoFileA, demoFileBad] initialWorld).2.tmpDirs = [] ∧
    (uploadFiles { demoEnv with removeTmpOk := false }
      [demoFileA, demoFileBad] initialWorld).1 =
      (uploadFiles demoEnv [demoFileA, demoFileBad] initialWorld).1 := by
  have h := uploadFiles_cleanup demoEnv [demoFileA, demoFileBad] initialWorld (by decide)
  exact ⟨h.1 rfl, h.2 false⟩

end MediaUpload
